import Mathlib

/-!
Verification of the uexbot repository's cache/lookup/pagination/retry core.

Shallow embedding notes:
* Python strings are modelled at the character-list level (`List Char`).
  Character classes (`str.lower`, `str.strip`, the regex class `\d`) are
  modelled over ASCII, which is the range the bot's data uses.
* Machine floats used for timestamps and TTLs are modelled as `Nat`
  (event-loop time is monotone, TTLs are integral seconds in the source).
* `async` functions are pure functions of the data they await on; network
  responses are passed in explicitly.
-/

namespace UexBot

/-! ### Python string primitives (ASCII model) -/

/-- ASCII model of a Python whitespace character, as removed by `str.strip()`. -/
def pyIsSpace (c : Char) : Bool :=
  c == ' ' || c == '\t' || c == '\n' || c == '\r' || c == '\x0b' || c == '\x0c'

/-- ASCII model of the regex class `\d` used by `_is_int` in `cogs/category.py`. -/
def pyIsDigit (c : Char) : Bool :=
  48 ≤ c.toNat && c.toNat ≤ 57

/-- ASCII model of `str.lower()` on one character. -/
def pyToLower (c : Char) : Char :=
  if 65 ≤ c.toNat && c.toNat ≤ 90 then Char.ofNat (c.toNat + 32) else c

/-- `str.strip()`: drop whitespace from both ends. -/
def pyStrip (l : List Char) : List Char :=
  ((l.dropWhile pyIsSpace).reverse.dropWhile pyIsSpace).reverse

/-- `str.lower()` over a whole string. -/
def pyLower (l : List Char) : List Char :=
  l.map pyToLower

/-- `_norm(text) = (text or "").strip().lower()`, shared verbatim by
`cogs/category.py`, `cogs/price.py`, `cogs/trade.py` and `cogs/route.py`. -/
def norm (s : String) : List Char :=
  pyLower (pyStrip s.toList)

/-- `_is_int(text) = bool(re.fullmatch(r"\d+", (text or "").strip()))`
from `cogs/category.py`. -/
def is_int (s : String) : Bool :=
  !(pyStrip s.toList).isEmpty && (pyStrip s.toList).all pyIsDigit

/-- Decimal value of a digit string, accumulator style. -/
def decValAux : List Char → Nat → Nat
  | [], acc => acc
  | c :: cs, acc => decValAux cs (acc * 10 + (c.toNat - 48))

/-- Python `int(query)` for a query that matched `\d+` after stripping. -/
def pyInt (s : String) : Nat :=
  decValAux (pyStrip s.toList) 0

/-- Python `s.startswith(pre)`. -/
def pyStartsWith (s pre : List Char) : Bool :=
  decide (pre <+: s)

/-- Python `sub in s` (substring containment). -/
def pyIn (sub s : List Char) : Bool :=
  decide (sub <:+: s)

/-- Decimal digits of a `Nat`, most significant first, with explicit fuel so the
definition is structural (Python `str(int)` on a non-negative int). -/
def natToDecAux : Nat → Nat → List Char → List Char
  | 0, _, acc => acc
  | fuel + 1, n, acc =>
    let d := Char.ofNat (48 + n % 10)
    if n < 10 then d :: acc else natToDecAux fuel (n / 10) (d :: acc)

/-- Python `str(n)` for a non-negative integer `n`. -/
def natToDec (n : Nat) : List Char :=
  natToDecAux (n + 1) n []

/-! ### Data model: entity records

Upstream records are dicts with an integer `id` and a string `name`
(`Entity record` in the spec's data model). -/

structure Entity where
  id : Nat
  name : String
deriving DecidableEq, Repr

/-! ### TTL file cache (`utils/cache.py`)

A slot on disk is either absent, unreadable/unparsable (any I/O or parse
exception), or holds the envelope `{"data": d}` written by `save_json_cache`;
`age` is `time.time() - st.st_mtime` at the moment of the read. -/

inductive Slot (α : Type) where
  | absent : Slot α
  | corrupt : Slot α
  | saved (data : α) (age : Nat) : Slot α
deriving DecidableEq, Repr

/-- `load_json_cache(name, max_age_sec)` from `utils/cache.py`:
missing file → `None`; any exception while reading/parsing → `None`;
`time.time() - st.st_mtime > max_age_sec` → `None`; otherwise the payload
with the `{"data": ...}` envelope stripped (`payload.get("data", payload)`). -/
def load_json_cache {α : Type} (slot : Slot α) (max_age_sec : Nat) : Option α :=
  match slot with
  | .absent => none
  | .corrupt => none
  | .saved d age => if age > max_age_sec then none else some d

/-- `save_json_cache(name, data)` from `utils/cache.py`: atomically replaces
the slot with the envelope `{"data": data}`; the fresh file's age is 0. -/
def save_json_cache {α : Type} (data : α) : Slot α :=
  .saved data 0

/-! ### Paginator (`utils/pager.py`) -/

/-- State of a `BasePaginatorView`: `total = len(items)`, the fixed
`page_size`, the authorized `user_id`, and the moving `offset`. -/
structure PagerState where
  total : Nat
  page_size : Nat
  user_id : Nat
  offset : Nat
deriving DecidableEq, Repr

/-- `_guard`: `interaction.user and interaction.user.id == self.user_id`;
`uid` is `None` when the interaction carries no user. -/
def pager_guard (s : PagerState) (uid : Option Nat) : Bool :=
  match uid with
  | some u => u == s.user_id
  | none => false

/-- `on_next`: if the guard fails, send an ephemeral rejection (the returned
`Bool`) and leave the state alone; otherwise
`offset = min(offset + page_size, max(0, total - page_size))`.
(`total - page_size` is ℕ-truncated subtraction, which agrees with Python's
`max(0, total - page_size)`.) -/
def on_next (s : PagerState) (uid : Option Nat) : PagerState × Bool :=
  if pager_guard s uid then
    ({ s with offset := min (s.offset + s.page_size) (max 0 (s.total - s.page_size)) }, false)
  else
    (s, true)

/-- `on_prev`: if the guard fails, send an ephemeral rejection and leave the
state alone; otherwise `offset = max(0, offset - page_size)`. -/
def on_prev (s : PagerState) (uid : Option Nat) : PagerState × Bool :=
  if pager_guard s uid then
    ({ s with offset := max 0 (s.offset - s.page_size) }, false)
  else
    (s, true)

/-- `_page_slice`: `items[offset : offset + page_size]`. -/
def page_slice (items : List Entity) (s : PagerState) : List Entity :=
  (items.drop s.offset).take s.page_size

/-! ### Entity resolver (`cogs/category.py`, `cogs/price.py`, `cogs/trade.py`)

The name-matching tail (exact → startswith → contains, each taking the first
element of the filtered list) is textually identical in `_find_category`,
`Price._find_commodity` and `Trade._find_commodity`; it is factored out here
once. -/

/-- The shared name-matching block:
`exact = [c for c in es if _norm(c["name"]) == q]; if exact: return exact[0]`,
then the same with `.startswith(q)`, then with `q in _norm(c["name"])`,
else `None`. `q` is the already-normalized query. -/
def resolve_by_name (es : List Entity) (q : List Char) : Option Entity :=
  match es.filter (fun c => norm c.name == q) with
  | e :: _ => some e
  | [] =>
    match es.filter (fun c => pyStartsWith (norm c.name) q) with
    | e :: _ => some e
    | [] =>
      match es.filter (fun c => pyIn q (norm c.name)) with
      | e :: _ => some e
      | [] => none

/-- `Category._find_category` (`cogs/category.py`): empty list → `None`;
if `_is_int(query)` then scan for `c["id"] == int(query)` and return `None`
on no hit (no name fallback); otherwise the name-matching block. -/
def find_category (cats : List Entity) (query : String) : Option Entity :=
  if cats.isEmpty then none
  else if is_int query then
    cats.find? (fun c => c.id == pyInt query)
  else
    resolve_by_name cats (norm query)

/-- `Price._find_commodity` (`cogs/price.py`) and the identical
`Trade._find_commodity` (`cogs/trade.py`): empty list → `None`; first the
scan `str(c["id"]) == q` over the *normalized* query with no numeric guard;
when it misses, the name-matching block runs for every query. -/
def find_commodity (items : List Entity) (query : String) : Option Entity :=
  if items.isEmpty then none
  else
    match items.find? (fun c => natToDec c.id == norm query) with
    | some c => some c
    | none => resolve_by_name items (norm query)

/-! ### Autocomplete -/

/-- The suggestion subset built by `Price.commodity_autocomplete`
(`cogs/price.py`, and identically `Route.commodity_autocomplete`,
`terminal_autocomplete`, `Trade.commodity_autocomplete`): empty normalized
query → `commodities[:20]`; otherwise
`([startswith matches] + [substring matches])[:20]` — note the second list
is *not* filtered against the first. The surrounding `app_commands.Choice`
construction maps the subset 1:1 and is elided. -/
def commodity_autocomplete (commodities : List Entity) (current : String) : List Entity :=
  let cur := norm current
  if cur.isEmpty then commodities.take 20
  else
    ((commodities.filter fun c => pyStartsWith (norm c.name) cur)
      ++ (commodities.filter fun c => pyIn cur (norm c.name))).take 20

/-- `UEXAPI.search_categories` (`utils/uex_api.py`): empty query →
`cats[:limit]`; otherwise `starts + contains` where `contains` excludes
entries already in `starts` (`c not in starts`), truncated to `limit`
(default 25). -/
def search_categories (cats : List Entity) (query : String) (limit : Nat := 25) : List Entity :=
  let q := norm query
  if q.isEmpty then cats.take limit
  else
    let starts := cats.filter fun c => pyStartsWith (norm c.name) q
    let contains := cats.filter fun c => pyIn q (norm c.name) && !(decide (c ∈ starts))
    (starts ++ contains).take limit

/-- The `try/except` wrapper of every autocomplete handler
(`Price.commodity_autocomplete`, `Route.commodity_autocomplete`, …):
any exception while obtaining the entity list returns `[]`; on success the
suggestion subset is built. `ε` is the (arbitrary) exception payload. -/
def commodity_autocomplete_guarded {ε : Type} (fetched : Except ε (List Entity))
    (current : String) : List Entity :=
  match fetched with
  | .error _ => []
  | .ok items => commodity_autocomplete items current

/-! ### Tiered cache loaders (`cogs/price.py`, `cogs/trade.py`, `cogs/route.py`) -/

/-- A `(timestamp, items)` pair as held in `self._commodities_cache` etc. -/
structure MemCache where
  ts : Nat
  items : List Entity
deriving DecidableEq, Repr

/-- `_load_commodities` / `_load_terminals` / `_load_vehicles`
(identical shape in `cogs/price.py`, `cogs/trade.py`, `cogs/route.py`):
`if cached and (now - ts) < ttl: return cached` — note Python truthiness
makes an empty cached list fall through to the fetch. On the fetch path the
upstream result is stored in memory and mirrored to disk. Returns
(result, whether the network was used, new memory entry, new disk slot). -/
def load_commodities (now : Nat) (ttl : Nat) (cache : MemCache)
    (fetched : List Entity) (slot : Slot (List Entity)) :
    List Entity × Bool × MemCache × Slot (List Entity) :=
  if !cache.items.isEmpty && now - cache.ts < ttl then
    (cache.items, false, cache, slot)
  else
    (fetched, true, ⟨now, fetched⟩, save_json_cache fetched)

/-- `Price._load_prices` (`cogs/price.py`): `cached = load_json_cache(name, 600);
if cached: return cached` — `None` and the empty list both fall through to the
fetch, whose result is saved to disk. Returns
(result, whether the network was used, new disk slot). -/
def load_prices (slot : Slot (List Entity)) (fetched : List Entity) :
    List Entity × Bool × Slot (List Entity) :=
  if !((load_json_cache slot 600).getD []).isEmpty then
    (((load_json_cache slot 600).getD []), false, slot)
  else (fetched, true, save_json_cache fetched)

/-! ### Upstream fetch with 429 retry (`utils/uex_api.py`) -/

/-- One HTTP response: status code, optional `Retry-After` header (seconds),
and the JSON body (abstracted to a `Nat` tag). -/
structure Resp where
  code : Nat
  retryAfter : Option Nat
  body : Nat
deriving DecidableEq, Repr

/-- `resp.raise_for_status()` followed by `resp.json()`: aiohttp raises for
any status ≥ 400, otherwise the body is returned. -/
def raise_for_status (r : Resp) : Except Nat Nat :=
  if 400 ≤ r.code then .error r.code else .ok r.body

deriving instance DecidableEq for Except

/-- Outcome of `UEXAPI.get`: the surfaced result (body or raised status),
how many GET requests were issued, and the sleeps performed (in order). -/
structure GetResult where
  result : Except Nat Nat
  requests : Nat
  sleeps : List Nat
deriving DecidableEq, Repr

/-- `UEXAPI.RETRIES`. -/
def RETRIES : Nat := 3

/-- The body of `UEXAPI.get`'s `for attempt in range(1, RETRIES + 1)` loop.
`resps k` is the response to the (k+1)-th GET issued; `fuel` counts the loop
iterations left (initially `RETRIES`, mirroring `attempt` via
`fuel = RETRIES + 1 - attempt`). Inside the loop: on
`resp.status == 429 and attempt < RETRIES`, sleep for
`float(retry_after) if retry_after else 1.0 * attempt` and continue; otherwise
`raise_for_status` / return the body. If the loop ever ran out (it cannot for
`RETRIES = 3`), the request would be issued once more and its status raised. -/
def get_aux (resps : Nat → Resp) : Nat → Nat → Nat → List Nat → GetResult
  | 0, _, reqs, sleeps =>
    let r := resps reqs
    { result := raise_for_status r, requests := reqs + 1, sleeps := sleeps }
  | fuel + 1, attempt, reqs, sleeps =>
    let r := resps reqs
    if r.code == 429 && attempt < RETRIES then
      get_aux resps fuel (attempt + 1) (reqs + 1) (sleeps ++ [r.retryAfter.getD attempt])
    else
      { result := raise_for_status r, requests := reqs + 1, sleeps := sleeps }

/-- `UEXAPI.get(resource, **params)` as a function of the response stream. -/
def uex_get (resps : Nat → Resp) : GetResult :=
  get_aux resps RETRIES 1 0 []

/-! ## Helper lemmas -/

theorem charToNat_ofNat_of_lt {n : Nat} (h : n < 55296) : (Char.ofNat n).toNat = n := by
  have hv : n.isValidChar := Or.inl h
  rw [Char.ofNat, dif_pos hv]
  rfl

theorem pyIsDigit_pyToLower (c : Char) : pyIsDigit (pyToLower c) = pyIsDigit c := by
  unfold pyToLower pyIsDigit
  split
  next h =>
    simp only [Bool.and_eq_true, decide_eq_true_eq] at h
    rw [charToNat_ofNat_of_lt (by omega)]
    have hL : decide (c.toNat + 32 ≤ 57) = false := decide_eq_false (by omega)
    have hR : decide (c.toNat ≤ 57) = false := decide_eq_false (by omega)
    rw [hL, hR, Bool.and_false, Bool.and_false]
  next => rfl

theorem natToDecAux_all_digits (fuel : Nat) :
    ∀ n acc, (natToDecAux fuel n acc).all pyIsDigit = acc.all pyIsDigit := by
  induction fuel with
  | zero => intro n acc; rfl
  | succ fuel ih =>
    intro n acc
    have hd : pyIsDigit (Char.ofNat (48 + n % 10)) = true := by
      have h10 : n % 10 < 10 := Nat.mod_lt _ (by omega)
      unfold pyIsDigit
      rw [charToNat_ofNat_of_lt (by omega)]
      simp only [Bool.and_eq_true, decide_eq_true_eq]
      omega
    show (if n < 10 then Char.ofNat (48 + n % 10) :: acc
          else natToDecAux fuel (n / 10) (Char.ofNat (48 + n % 10) :: acc)).all pyIsDigit
        = acc.all pyIsDigit
    split
    · simp [List.all_cons, hd]
    · rw [ih]; simp [List.all_cons, hd]

theorem natToDecAux_ne_nil (fuel : Nat) :
    ∀ n acc, fuel ≠ 0 ∨ acc ≠ [] → natToDecAux fuel n acc ≠ [] := by
  induction fuel with
  | zero =>
    intro n acc h
    rcases h with h | h
    · exact absurd rfl h
    · exact h
  | succ fuel ih =>
    intro n acc _
    unfold natToDecAux
    split
    · simp
    · exact ih _ _ (Or.inr (by simp))

theorem natToDec_all_digits (n : Nat) : (natToDec n).all pyIsDigit = true := by
  unfold natToDec
  rw [natToDecAux_all_digits]
  rfl

theorem natToDec_ne_nil (n : Nat) : natToDec n ≠ [] :=
  natToDecAux_ne_nil (n + 1) n [] (Or.inl (by omega))

theorem natToDec_ne_norm {q : String} (h : is_int q = false) (n : Nat) :
    natToDec n ≠ norm q := by
  intro heq
  have hall : (norm q).all pyIsDigit = true := heq ▸ natToDec_all_digits n
  have hne : norm q ≠ [] := heq ▸ natToDec_ne_nil n
  unfold norm pyLower at hall hne
  rw [List.all_map] at hall
  have hall' : (pyStrip q.toList).all pyIsDigit = true := by
    rw [show ((pyIsDigit ∘ pyToLower) = pyIsDigit) from funext pyIsDigit_pyToLower] at hall
    exact hall
  have hne' : pyStrip q.toList ≠ [] := fun hq => hne (by rw [hq]; rfl)
  unfold is_int at h
  rw [hall'] at h
  simp only [Bool.and_true, Bool.not_eq_false'] at h
  rw [List.isEmpty_iff] at h
  exact hne' h

theorem head?_filter_eq_find? {α : Type} (p : α → Bool) (l : List α) :
    (l.filter p).head? = l.find? p := by
  induction l with
  | nil => rfl
  | cons a l ih =>
    by_cases h : p a <;> simp [List.filter_cons, List.find?_cons, h, ih]

theorem resolve_by_name_eq_find? (es : List Entity) (q : List Char) :
    resolve_by_name es q =
      ((es.find? fun c => norm c.name == q).orElse fun _ =>
        ((es.find? fun c => pyStartsWith (norm c.name) q).orElse fun _ =>
          es.find? fun c => pyIn q (norm c.name))) := by
  unfold resolve_by_name
  rw [← head?_filter_eq_find?, ← head?_filter_eq_find?, ← head?_filter_eq_find?]
  rcases h1 : es.filter (fun c => norm c.name == q) with _ | ⟨a, l⟩ <;>
    rcases h2 : es.filter (fun c => pyStartsWith (norm c.name) q) with _ | ⟨b, m⟩ <;>
      rcases h3 : es.filter (fun c => pyIn q (norm c.name)) with _ | ⟨d, r⟩ <;>
        simp [Option.orElse, h1, h2, h3]

theorem pyIn_of_pyStartsWith {s pre : List Char} (h : pyStartsWith s pre = true) :
    pyIn pre s = true := by
  unfold pyStartsWith at h
  unfold pyIn
  rw [decide_eq_true_eq] at *
  obtain ⟨t, ht⟩ := h
  exact ⟨[], t, ht⟩

/-! ## Claims -/

/-- C4. `load_json_cache` returns the saved payload iff the slot holds a
saved envelope whose age does not exceed the TTL; in every other case
(missing file, unreadable/unparsable file, staleness) it returns a miss —
and, being a total function into `Option`, it never raises. -/
theorem C4_load_hit_iff {α : Type} (s : Slot α) (t : Nat) (d : α) :
    load_json_cache s t = some d ↔ ∃ e, s = Slot.saved d e ∧ e ≤ t := by
  cases s with
  | absent => simp [load_json_cache]
  | corrupt => simp [load_json_cache]
  | saved d' e =>
    simp only [load_json_cache]
    constructor
    · intro h
      split at h
      · exact absurd h (by simp)
      · next hle =>
        have hd : d' = d := Option.some_inj.mp h
        exact ⟨e, by rw [hd], by omega⟩
    · rintro ⟨e', he', hle⟩
      injection he' with h1 h2
      rw [h1, h2, if_neg (by omega)]

/-- C8. `save_json_cache` immediately followed by `load_json_cache` with any
TTL returns the payload unchanged (the `{"data": ...}` envelope written by
save is stripped again by load). -/
theorem C8_save_load_roundtrip {α : Type} (X : α) (t : Nat) :
    load_json_cache (save_json_cache X) t = some X := by
  simp [save_json_cache, load_json_cache]

/-- C3. For every paginator state, an authorized `next` sets
`offset = min(offset + page_size, max(0, total - page_size))` and an
authorized `prev` sets `offset = max(0, offset - page_size)`; with 30
entries and page size 25, `next` from offset 0 yields 5, a further `next`
stays at 5, and `prev` at 0 stays at 0. -/
theorem C3_pager_clamp :
    (∀ s : PagerState,
      (on_next s (some s.user_id)).1.offset
          = min (s.offset + s.page_size) (max 0 (s.total - s.page_size))
      ∧ (on_prev s (some s.user_id)).1.offset = max 0 (s.offset - s.page_size))
    ∧ (on_next ⟨30, 25, 7, 0⟩ (some 7)).1 = ⟨30, 25, 7, 5⟩
    ∧ (on_next ⟨30, 25, 7, 5⟩ (some 7)).1 = ⟨30, 25, 7, 5⟩
    ∧ (on_prev ⟨30, 25, 7, 0⟩ (some 7)).1 = ⟨30, 25, 7, 0⟩ := by
  refine ⟨fun s => ⟨?_, ?_⟩, by decide, by decide, by decide⟩ <;>
    simp [on_next, on_prev, pager_guard]

/-- C7. A navigation attempt (`next` or `prev`) by a user whose ID differs
from the authorized one is rejected with an ephemeral notice (the `true`
flag) and leaves the paginator state — in particular `offset` — unchanged. -/
theorem C7_pager_auth (s : PagerState) (u : Nat) (h : u ≠ s.user_id) :
    on_next s (some u) = (s, true) ∧ on_prev s (some u) = (s, true) := by
  have hg : pager_guard s (some u) = false := by
    simp [pager_guard, h]
  constructor <;> simp [on_next, on_prev, hg]

theorem C7_pager_auth_witness :
    (5 : Nat) ≠ (PagerState.mk 30 25 7 0).user_id
    ∧ on_next ⟨30, 25, 7, 0⟩ (some 5) = (⟨30, 25, 7, 0⟩, true)
    ∧ on_prev ⟨30, 25, 7, 0⟩ (some 5) = (⟨30, 25, 7, 0⟩, true) :=
  ⟨by decide, (C7_pager_auth ⟨30, 25, 7, 0⟩ 5 (by decide)).1,
    (C7_pager_auth ⟨30, 25, 7, 0⟩ 5 (by decide)).2⟩

/-- C9. If obtaining the underlying entity list raises any exception, the
autocomplete returns the empty suggestion list instead of propagating. -/
theorem C9_autocomplete_swallows {ε : Type} (err : ε) (current : String) :
    commodity_autocomplete_guarded (Except.error err) current = [] :=
  rfl

/-- C2 counterexample: the query `"7"` is syntactically an unsigned integer
and no entity has id 7, yet `Price._find_commodity`/`Trade._find_commodity`
resolves it to the entity named `"7up"` through the name-prefix fallback —
the claim's "never falls back to name matching when the query looks
numeric" is false for these resolvers. -/
theorem C2_numeric_fallback_cex :
    is_int "7" = true
    ∧ (∀ c ∈ [Entity.mk 1 "7up"], c.id ≠ pyInt "7")
    ∧ find_commodity [⟨1, "7up"⟩] "7" = some ⟨1, "7up"⟩ := by
  decide

/-- C2 amended: only `Category._find_category` short-circuits on numeric
queries (it returns exactly the first id match, or none, with no name
fallback); `Price._find_commodity` and `Trade._find_commodity` compare
`str(id)` against the normalized query first and, when no id matches, fall
back to name matching even for numeric queries. -/
theorem C2_numeric_shortcircuit_amended (cats items : List Entity) (q : String)
    (h : is_int q = true) :
    find_category cats q = cats.find? (fun c => c.id == pyInt q)
    ∧ (items.find? (fun c => natToDec c.id == norm q) = none →
        find_commodity items q = resolve_by_name items (norm q)) := by
  constructor
  · unfold find_category
    rcases cats with _ | ⟨c, cs⟩
    · rfl
    · rw [if_neg (by simp), if_pos h]
  · intro hf
    unfold find_commodity
    rcases items with _ | ⟨c, cs⟩
    · rfl
    · rw [if_neg (by simp), hf]

theorem C2_numeric_shortcircuit_amended_witness :
    is_int "12" = true
    ∧ find_category [⟨12, "x"⟩] "12"
        = List.find? (fun c => c.id == pyInt "12") ([⟨12, "x"⟩] : List Entity)
    ∧ List.find? (fun c => natToDec c.id == norm "12") ([⟨3, "a12b"⟩] : List Entity) = none
    ∧ find_commodity [⟨3, "a12b"⟩] "12" = resolve_by_name [⟨3, "a12b"⟩] (norm "12") :=
  ⟨by decide, (C2_numeric_shortcircuit_amended [⟨12, "x"⟩] [⟨3, "a12b"⟩] "12" (by decide)).1,
    by decide,
    (C2_numeric_shortcircuit_amended [⟨12, "x"⟩] [⟨3, "a12b"⟩] "12" (by decide)).2 (by decide)⟩

/-- C5. For every non-numeric query, all three resolvers run the shared
name-matching block, which picks the first normalized-name exact match,
else the first prefix match, else the first substring match, else none
(short-circuiting at the first non-empty stage); on
`[{id:1,name:"Gold"}, {id:2,name:"Golden Ore"}]` the query `"gold"`
resolves to id 1 even though id 2 also matches as a prefix. -/
theorem C5_resolver_priority (es : List Entity) (q : String) (h : is_int q = false) :
    find_category es q = resolve_by_name es (norm q)
    ∧ find_commodity es q = resolve_by_name es (norm q)
    ∧ resolve_by_name es (norm q) =
        ((es.find? fun c => norm c.name == norm q).orElse fun _ =>
          ((es.find? fun c => pyStartsWith (norm c.name) (norm q)).orElse fun _ =>
            es.find? fun c => pyIn (norm q) (norm c.name)))
    ∧ find_commodity [⟨1, "Gold"⟩, ⟨2, "Golden Ore"⟩] "gold" = some ⟨1, "Gold"⟩
    ∧ find_category [⟨1, "Gold"⟩, ⟨2, "Golden Ore"⟩] "gold" = some ⟨1, "Gold"⟩ := by
  refine ⟨?_, ?_, resolve_by_name_eq_find? es (norm q), by decide, by decide⟩
  · unfold find_category
    rcases es with _ | ⟨c, cs⟩
    · rfl
    · rw [if_neg (by simp), if_neg (by simp [h])]
  · unfold find_commodity
    rcases es with _ | ⟨c, cs⟩
    · rfl
    · rw [if_neg (by simp)]
      have hf : (c :: cs).find? (fun c => natToDec c.id == norm q) = none := by
        rw [List.find?_eq_none]
        intro x _
        simp only [beq_iff_eq]
        exact natToDec_ne_norm h x.id
      rw [hf]

theorem C5_resolver_priority_witness :
    is_int "gold" = false
    ∧ find_commodity [⟨1, "Gold"⟩, ⟨2, "Golden Ore"⟩] "gold" = some ⟨1, "Gold"⟩ :=
  ⟨by decide,
    (C5_resolver_priority [⟨1, "Gold"⟩, ⟨2, "Golden Ore"⟩] "gold" (by decide)).2.2.2.1⟩

/-- C6 counterexample: in `Price.commodity_autocomplete` the substring list
is *not* filtered against the prefix list, so an entity whose name matches
as a prefix appears twice — the claim's "contain no entity twice
(deduplicated)" is false for the cog autocompletes. -/
theorem C6_duplicate_cex :
    commodity_autocomplete [⟨1, "gold"⟩] "gold" = [⟨1, "gold"⟩, ⟨1, "gold"⟩]
    ∧ ¬ (commodity_autocomplete [⟨1, "gold"⟩] "gold").Nodup := by
  decide

/-- C6 amended: for the cog autocompletes, an empty normalized query yields
the first 20 entities unfiltered, the result is capped at 20, and (for a
non-empty query) every suggestion comes from the list and matches the query
as a substring — but prefix matches are repeated in the substring pass, so
the list is not deduplicated; only `UEXAPI.search_categories` excludes
prefix matches from its substring pass (it preserves duplicate-freeness and
caps at its `limit` parameter, default 25). -/
theorem C6_autocomplete_amended (es cats : List Entity) (q : String) :
    (norm q = [] → commodity_autocomplete es q = es.take 20)
    ∧ (commodity_autocomplete es q).length ≤ 20
    ∧ (∀ c ∈ commodity_autocomplete es q, norm q ≠ [] →
        c ∈ es ∧ pyIn (norm q) (norm c.name) = true)
    ∧ (cats.Nodup → (search_categories cats q).Nodup)
    ∧ (search_categories cats q).length ≤ 25 := by
  refine ⟨?_, ?_, ?_, ?_, ?_⟩
  · intro h
    simp only [commodity_autocomplete]
    rw [h]
    rfl
  · simp only [commodity_autocomplete]
    split <;> exact List.length_take_le _ _
  · intro c hc hq
    simp only [commodity_autocomplete] at hc
    rw [if_neg (by simpa [List.isEmpty_iff] using hq)] at hc
    have hc' := List.take_subset _ _ hc
    rcases List.mem_append.mp hc' with hm | hm
    · obtain ⟨hin, hp⟩ := List.mem_filter.mp hm
      exact ⟨hin, pyIn_of_pyStartsWith hp⟩
    · obtain ⟨hin, hp⟩ := List.mem_filter.mp hm
      exact ⟨hin, hp⟩
  · intro hnd
    simp only [search_categories]
    split
    · exact hnd.sublist (List.take_sublist _ _)
    · refine List.Nodup.sublist (List.take_sublist _ _) (List.nodup_append.mpr ⟨?_, ?_, ?_⟩)
      · exact hnd.filter _
      · exact hnd.filter _
      · intro a ha ha'
        obtain ⟨_, hp⟩ := List.mem_filter.mp ha'
        simp only [Bool.and_eq_true, Bool.not_eq_true', decide_eq_false_iff_not] at hp
        exact hp.2 ha
  · simp only [search_categories]
    split <;> exact List.length_take_le _ _

theorem C6_autocomplete_amended_witness :
    norm "" = []
    ∧ commodity_autocomplete ([⟨1, "gold"⟩] : List Entity) ""
        = ([⟨1, "gold"⟩] : List Entity).take 20 :=
  ⟨by decide, (C6_autocomplete_amended [⟨1, "gold"⟩] [] "").1 (by decide)⟩

/-- C10 (implicit). At both cache tiers an empty list is never served as a
hit: an empty in-memory entry or an empty disk slot falls through Python
truthiness and triggers the upstream fetch even within the TTL window, so
every list served from cache without a network call is non-empty. -/
theorem C10_empty_cache_is_miss (now ttl : Nat) (cache : MemCache)
    (fetched : List Entity) (slot pslot : Slot (List Entity))
    (hmem : cache.items = []) (hdisk : load_json_cache pslot 600 = some []) :
    (load_commodities now ttl cache fetched slot).1 = fetched
    ∧ (load_commodities now ttl cache fetched slot).2.1 = true
    ∧ (load_prices pslot fetched).1 = fetched
    ∧ (load_prices pslot fetched).2.1 = true
    ∧ (∀ now' ttl' cache' (fetched' : List Entity) slot',
        (load_commodities now' ttl' cache' fetched' slot').2.1 = false →
        (load_commodities now' ttl' cache' fetched' slot').1 = cache'.items
          ∧ cache'.items ≠ [])
    ∧ (∀ pslot' (fetched' : List Entity),
        (load_prices pslot' fetched').2.1 = false →
        (load_prices pslot' fetched').1 ≠ []) := by
  have hmc : ∀ now' ttl', load_commodities now' ttl' cache fetched slot
      = (fetched, true, ⟨now', fetched⟩, save_json_cache fetched) := by
    intro now' ttl'
    unfold load_commodities
    rw [if_neg (by simp [hmem])]
  have hlp : load_prices pslot fetched = (fetched, true, save_json_cache fetched) := by
    unfold load_prices
    rw [hdisk]
    rfl
  refine ⟨by rw [hmc], by rw [hmc], by rw [hlp], by rw [hlp], ?_, ?_⟩
  · intro now' ttl' cache' fetched' slot' hnet
    unfold load_commodities at hnet ⊢
    by_cases hcond : (!cache'.items.isEmpty && decide (now' - cache'.ts < ttl')) = true
    · rw [if_pos hcond]
      simp only [Bool.and_eq_true, Bool.not_eq_true', List.isEmpty_eq_false] at hcond
      exact ⟨rfl, hcond.1⟩
    · rw [if_neg hcond] at hnet
      exact absurd hnet (by simp)
  · intro pslot' fetched' hnet
    unfold load_prices at hnet ⊢
    by_cases hcond : (!((load_json_cache pslot' 600).getD []).isEmpty) = true
    · rw [if_pos hcond]
      simp only [Bool.not_eq_true', List.isEmpty_eq_false] at hcond
      simpa using hcond
    · rw [if_neg hcond] at hnet
      exact absurd hnet (by simp)

theorem C10_empty_cache_is_miss_witness :
    (MemCache.mk 0 []).items = ([] : List Entity)
    ∧ load_json_cache (Slot.saved ([] : List Entity) 0) 600 = some []
    ∧ (load_commodities 0 86400 ⟨0, []⟩ [⟨1, "x"⟩] Slot.absent).1 = [⟨1, "x"⟩] :=
  ⟨rfl, by decide,
    (C10_empty_cache_is_miss 0 86400 ⟨0, []⟩ [⟨1, "x"⟩] Slot.absent
      (Slot.saved [] 0) rfl (by decide)).1⟩

/-- Concrete 429 stream: three rate-limit responses, then a 200. -/
def resp429stream : Nat → Resp :=
  fun n => if n < 3 then ⟨429, none, 0⟩ else ⟨200, none, 42⟩

/-- C1 counterexample: three consecutive 429 responses followed by a 200 do
*not* yield a successful return — the third attempt's 429 is raised from
inside the loop after exactly 2 delayed retries (sleeps 1 s then 2 s), only
3 requests are ever issued, and the post-loop re-issue never runs. -/
theorem C1_third_429_raises_cex :
    uex_get resp429stream = ⟨.error 429, 3, [1, 2]⟩ := by
  decide

/-- C1 amended: `UEXAPI.get` issues at most 3 attempts; before each retry it
sleeps for the `Retry-After` header value when present, else `1.0 * attempt`
(linear backoff); the third attempt's outcome (success or error, including a
third consecutive 429) is surfaced directly and the request is never
re-issued a fourth time. -/
theorem get_aux_step (resps : Nat → Resp) (fuel attempt reqs : Nat) (sleeps : List Nat) :
    get_aux resps (fuel + 1) attempt reqs sleeps =
      if (resps reqs).code == 429 && attempt < RETRIES then
        get_aux resps fuel (attempt + 1) (reqs + 1)
          (sleeps ++ [(resps reqs).retryAfter.getD attempt])
      else
        ⟨raise_for_status (resps reqs), reqs + 1, sleeps⟩ :=
  rfl

theorem C1_retry_amended (resps : Nat → Resp) :
    ((resps 0).code ≠ 429 → uex_get resps = ⟨raise_for_status (resps 0), 1, []⟩)
    ∧ ((resps 0).code = 429 → (resps 1).code ≠ 429 →
        uex_get resps = ⟨raise_for_status (resps 1), 2, [(resps 0).retryAfter.getD 1]⟩)
    ∧ ((resps 0).code = 429 → (resps 1).code = 429 →
        uex_get resps = ⟨raise_for_status (resps 2), 3,
          [(resps 0).retryAfter.getD 1, (resps 1).retryAfter.getD 2]⟩) := by
  refine ⟨fun h0 => ?_, fun h0 h1 => ?_, fun h0 h1 => ?_⟩
  · show get_aux resps (2 + 1) 1 0 [] = _
    rw [get_aux_step, if_neg (by simp [h0])]
  · show get_aux resps (2 + 1) 1 0 [] = _
    rw [get_aux_step, if_pos (by simp [h0, RETRIES])]
    show get_aux resps (1 + 1) 2 1 _ = _
    rw [get_aux_step, if_neg (by simp [h1])]
    rfl
  · show get_aux resps (2 + 1) 1 0 [] = _
    rw [get_aux_step, if_pos (by simp [h0, RETRIES])]
    show get_aux resps (1 + 1) 2 1 _ = _
    rw [get_aux_step, if_pos (by simp [h1, RETRIES])]
    show get_aux resps (0 + 1) 3 2 _ = _
    rw [get_aux_step, if_neg (by simp [RETRIES])]
    rfl

theorem C1_retry_amended_witness :
    (resp429stream 0).code = 429 ∧ (resp429stream 1).code = 429
    ∧ uex_get resp429stream = ⟨raise_for_status (resp429stream 2), 3,
        [(resp429stream 0).retryAfter.getD 1, (resp429stream 1).retryAfter.getD 2]⟩ :=
  ⟨by decide, by decide, (C1_retry_amended resp429stream).2.2 (by decide) (by decide)⟩

end UexBot
